import Mathlib

/-!
Verification of `src/utils/grame_extractor.py` (`extract_frames`).

The Python program opens a video, reads the reported total frame count,
computes `num_frames` evenly spaced target indices
`frame_indices[i] = floor(i * total_frames / num_frames)`, then scans the
stream forward once, writing the current frame whenever the running frame
counter equals the next target index.

Shallow embedding choices:
* a video source is a record: whether the backend can open it, the total
  frame count it reports (`int(cap.get(CAP_PROP_FRAME_COUNT))`, an integer
  that may be nonpositive), and the finite list of frames `cap.read`
  actually yields before it first returns `ret = False`;
* frames are an abstract type `α`; a file write is recorded as a pair of
  the file name and the frame written;
* `math.floor(i * total / num)` on nonnegative integers is floor division,
  embedded as `Nat` division;
* a `raise` is an `Except.error` in the run's outcome, and the Python list
  access `frame_indices[target_idx]` is embedded with `List.getElem?`, the
  `none` branch standing for the `IndexError` Python would raise.
-/

set_option autoImplicit false

namespace FrameSampler

variable {α : Type}

/-- The two `RuntimeError`s raised by `extract_frames`, plus the
`IndexError` that `frame_indices[target_idx]` would raise out of bounds. -/
inductive PyError where
  | sourceUnopenable
  | unknownLength
  | indexError
  deriving DecidableEq, Repr

/-- A video source as seen through `cv2.VideoCapture`: whether it opens,
the total frame count it reports, and the frames its sequential `read`
yields (in order) before the first `ret = False`. -/
structure VideoSource (α : Type) where
  opened : Bool
  reportedTotal : Int
  frames : List α

/-- `os.path.join(dir, name)` for a directory path without a trailing
separator. -/
def pathJoin (dir name : String) : String :=
  dir ++ "/" ++ name

/-- Python's `f"{n:04d}"`: decimal digits of `n`, left padded with zeros
to at least four characters. -/
def zeroPad4 (n : Nat) : String :=
  let s := toString n
  String.mk (List.replicate (4 - s.length) '0') ++ s

/-- The file name `os.path.join(output_dir, f"frame_{target_idx:04d}.png")`. -/
def frameFilename (dir : String) (t : Nat) : String :=
  pathJoin dir ("frame_" ++ zeroPad4 t ++ ".png")

/-- The summary line `Extracted {extracted} frames to '{output_dir}'`. -/
def extractMessage (n : Nat) (dir : String) : String :=
  "Extracted " ++ toString n ++ " frames to \x27" ++ dir ++ "\x27"

/-- The list `frame_indices`:
`[math.floor(i * total_frames / num_frames) for i in range(num_frames)]`. -/
def frameIndices (totalFrames numFrames : Nat) : List Nat :=
  (List.range numFrames).map (fun i => i * totalFrames / numFrames)

/-- The mutable state of the scan loop: the counters `extracted`,
`current_frame` and `target_idx`, plus the image files written so far. -/
structure ScanState (α : Type) where
  extracted : Nat
  currentFrame : Nat
  targetIdx : Nat
  writes : List (String × α)
  deriving Repr

/-- The `while cap.isOpened() and target_idx < num_frames` loop.
`cap.isOpened()` stays true throughout (release happens after the loop),
so the guard is `target_idx < num_frames`; an empty frame list is
`ret = False`, triggering `break`.  Returns the final state and, in the
second component, the `IndexError` if the list access went out of
bounds. -/
def scanFrames (idxL : List Nat) (numFrames : Nat) (dir : String) :
    List α → ScanState α → ScanState α × Option PyError
  | [], st => (st, none)
  | f :: rest, st =>
    if st.targetIdx < numFrames then
      match idxL[st.targetIdx]? with
      | none => (st, some PyError.indexError)
      | some tgt =>
        if st.currentFrame = tgt then
          scanFrames idxL numFrames dir rest
            { extracted := st.extracted + 1
              currentFrame := st.currentFrame + 1
              targetIdx := st.targetIdx + 1
              writes := st.writes ++ [(frameFilename dir st.targetIdx, f)] }
        else
          scanFrames idxL numFrames dir rest
            { st with currentFrame := st.currentFrame + 1 }
    else (st, none)

/-- Everything observable about one call of `extract_frames`: the image
files written (name and frame, in order), the final value of the
`extracted` counter, and either the printed summary line or the error
raised. -/
structure RunTrace (α : Type) where
  writes : List (String × α)
  extracted : Nat
  outcome : Except PyError String
  deriving Repr

/-- Packages the scan's result: on a scan error the run raises with the
writes performed so far; otherwise it prints the summary line. -/
def finishTrace (p : ScanState α × Option PyError) (dir : String) : RunTrace α :=
  match p.2 with
  | some e => ⟨p.1.writes, p.1.extracted, Except.error e⟩
  | none => ⟨p.1.writes, p.1.extracted, Except.ok (extractMessage p.1.extracted dir)⟩

/-- The function `extract_frames(video_path, output_dir, num_frames)`.
The `os.makedirs` call touches no image file and is not modelled.  It
raises `sourceUnopenable` when the source does not open, `unknownLength`
when the reported total is `<= 0`, and otherwise runs the scan loop from
`extracted = current_frame = target_idx = 0` and prints the summary. -/
def extract_frames (video : VideoSource α) (output_dir : String) (num_frames : Nat) :
    RunTrace α :=
  if video.opened = false then
    ⟨[], 0, Except.error PyError.sourceUnopenable⟩
  else if video.reportedTotal ≤ 0 then
    ⟨[], 0, Except.error PyError.unknownLength⟩
  else
    let total := video.reportedTotal.toNat
    let idxL := frameIndices total num_frames
    finishTrace (scanFrames idxL num_frames output_dir video.frames ⟨0, 0, 0, []⟩) output_dir

/-! ### Basic facts about the target index list -/

theorem frameIndices_length (T N : Nat) : (frameIndices T N).length = N := by
  simp [frameIndices]

theorem frameIndices_getElem? (T N i : Nat) (h : i < N) :
    (frameIndices T N)[i]? = some (i * T / N) := by
  simp [frameIndices, List.getElem?_map, List.getElem?_range h]

theorem frameIndices_getD (T N i : Nat) (h : i < N) :
    (frameIndices T N).getD i 0 = i * T / N := by
  rw [List.getD_eq_getElem?_getD, frameIndices_getElem? T N i h]
  rfl

theorem frameIndices_mono (T N i j : Nat) (hij : i ≤ j) (hj : j < N) :
    (frameIndices T N).getD i 0 ≤ (frameIndices T N).getD j 0 := by
  rw [frameIndices_getD T N i (lt_of_le_of_lt hij hj), frameIndices_getD T N j hj]
  exact Nat.div_le_div_right (Nat.mul_le_mul_right T hij)

theorem frameIndices_lt_total (T N i : Nat) (hT : 0 < T) (hi : i < N) :
    (frameIndices T N).getD i 0 < T := by
  rw [frameIndices_getD T N i hi]
  have hN : 0 < N := Nat.lt_of_le_of_lt (Nat.zero_le i) hi
  refine (Nat.div_lt_iff_lt_mul hN).mpr ?bound
  calc i * T < N * T := Nat.mul_lt_mul_of_pos_right hi hT
    _ = T * N := Nat.mul_comm N T

theorem frameIndices_strict (T N k : Nat) (hN : 0 < N) (hNT : N ≤ T)
    (hk : k + 1 < N) :
    (frameIndices T N).getD k 0 < (frameIndices T N).getD (k + 1) 0 := by
  rw [frameIndices_getD T N k (Nat.lt_of_succ_lt hk), frameIndices_getD T N (k + 1) hk]
  have step : k * T / N + 1 ≤ (k + 1) * T / N := by
    rw [Nat.le_div_iff_mul_le hN, Nat.add_mul, Nat.one_mul, Nat.add_mul, Nat.one_mul]
    exact Nat.add_le_add (Nat.div_mul_le_self (k * T) N) hNT
  exact Nat.lt_of_lt_of_le (Nat.lt_succ_self _) step

/-! ### Structural lemmas about the scan loop -/

theorem scanFrames_nil (idxL : List Nat) (N : Nat) (dir : String) (st : ScanState α) :
    scanFrames idxL N dir ([] : List α) st = (st, none) := rfl

theorem scanFrames_done (idxL : List Nat) (N : Nat) (dir : String)
    (frames : List α) (st : ScanState α) (h : ¬ st.targetIdx < N) :
    scanFrames idxL N dir frames st = (st, none) := by
  cases frames with
  | nil => rfl
  | cons f rest => simp [scanFrames, h]

/-- One loop iteration whose frame matches the pending target: a write
happens and all three counters advance. -/
theorem scanFrames_cons_hit (idxL : List Nat) (N : Nat) (dir : String)
    (f : α) (rest : List α) (st : ScanState α) (tgt : Nat)
    (hg : st.targetIdx < N) (hx : idxL[st.targetIdx]? = some tgt)
    (he : st.currentFrame = tgt) :
    scanFrames idxL N dir (f :: rest) st =
      scanFrames idxL N dir rest
        { extracted := st.extracted + 1
          currentFrame := st.currentFrame + 1
          targetIdx := st.targetIdx + 1
          writes := st.writes ++ [(frameFilename dir st.targetIdx, f)] } := by
  rw [scanFrames, if_pos hg, hx]
  simp only [if_pos he]

/-- One loop iteration whose frame does not match the pending target:
only `current_frame` advances. -/
theorem scanFrames_cons_miss (idxL : List Nat) (N : Nat) (dir : String)
    (f : α) (rest : List α) (st : ScanState α) (tgt : Nat)
    (hg : st.targetIdx < N) (hx : idxL[st.targetIdx]? = some tgt)
    (he : ¬ st.currentFrame = tgt) :
    scanFrames idxL N dir (f :: rest) st =
      scanFrames idxL N dir rest { st with currentFrame := st.currentFrame + 1 } := by
  rw [scanFrames, if_pos hg, hx]
  simp only [if_neg he]

/-- The `IndexError` branch never fires when the index list has exactly
`num_frames` entries, as it always does in `extract_frames`. -/
theorem scanFrames_no_error (idxL : List Nat) (N : Nat) (dir : String)
    (hlen : idxL.length = N) :
    ∀ (frames : List α) (st : ScanState α),
      (scanFrames idxL N dir frames st).2 = none := by
  intro frames
  induction frames with
  | nil => intro st; rfl
  | cons f rest ih =>
    intro st
    by_cases hg : st.targetIdx < N
    · have hb : st.targetIdx < idxL.length := hlen ▸ hg
      have hx : idxL[st.targetIdx]? = some idxL[st.targetIdx] :=
        List.getElem?_eq_getElem hb
      by_cases he : st.currentFrame = idxL[st.targetIdx]
      · rw [scanFrames_cons_hit idxL N dir f rest st _ hg hx he]; exact ih _
      · rw [scanFrames_cons_miss idxL N dir f rest st _ hg hx he]; exact ih _
    · rw [scanFrames_done _ _ _ _ _ hg]

theorem scanFrames_append (idxL : List Nat) (N : Nat) (dir : String)
    (hlen : idxL.length = N) (l₁ l₂ : List α) :
    ∀ st : ScanState α,
      scanFrames idxL N dir (l₁ ++ l₂) st =
        scanFrames idxL N dir l₂ (scanFrames idxL N dir l₁ st).1 := by
  induction l₁ with
  | nil => intro st; rfl
  | cons f rest ih =>
    intro st
    by_cases hg : st.targetIdx < N
    · have hb : st.targetIdx < idxL.length := hlen ▸ hg
      have hx : idxL[st.targetIdx]? = some idxL[st.targetIdx] :=
        List.getElem?_eq_getElem hb
      by_cases he : st.currentFrame = idxL[st.targetIdx]
      · rw [List.cons_append, scanFrames_cons_hit idxL N dir f (rest ++ l₂) st _ hg hx he,
          scanFrames_cons_hit idxL N dir f rest st _ hg hx he, ih]
      · rw [List.cons_append, scanFrames_cons_miss idxL N dir f (rest ++ l₂) st _ hg hx he,
          scanFrames_cons_miss idxL N dir f rest st _ hg hx he, ih]
    · rw [scanFrames_done _ _ _ _ _ hg, scanFrames_done _ _ _ _ _ hg,
        scanFrames_done _ _ _ _ _ hg]

/-- Writes only accumulate: the scan appends to `writes` and never
removes. -/
theorem scanFrames_writes_mono (idxL : List Nat) (N : Nat) (dir : String) :
    ∀ (frames : List α) (st : ScanState α),
      ∃ t, (scanFrames idxL N dir frames st).1.writes = st.writes ++ t := by
  intro frames
  induction frames with
  | nil => intro st; exact ⟨[], (List.append_nil st.writes).symm⟩
  | cons f rest ih =>
    intro st
    by_cases hg : st.targetIdx < N
    · cases hx : idxL[st.targetIdx]? with
      | none =>
        rw [scanFrames, if_pos hg, hx]
        exact ⟨[], (List.append_nil st.writes).symm⟩
      | some tgt =>
        by_cases he : st.currentFrame = tgt
        · rw [scanFrames_cons_hit idxL N dir f rest st tgt hg hx he]
          obtain ⟨t, ht⟩ := ih
            { extracted := st.extracted + 1
              currentFrame := st.currentFrame + 1
              targetIdx := st.targetIdx + 1
              writes := st.writes ++ [(frameFilename dir st.targetIdx, f)] }
          exact ⟨(frameFilename dir st.targetIdx, f) :: t, by
            rw [ht]; simp⟩
        · rw [scanFrames_cons_miss idxL N dir f rest st tgt hg hx he]
          exact ih _
    · rw [scanFrames_done _ _ _ _ _ hg]
      exact ⟨[], (List.append_nil st.writes).symm⟩

/-- The loop invariant `extracted = target_idx ∧ target_idx ≤ num_frames`:
both counters start equal, advance together, and `target_idx` only
advances under the loop guard. -/
theorem scanFrames_invariant (idxL : List Nat) (N : Nat) (dir : String) :
    ∀ (frames : List α) (st : ScanState α),
      st.extracted = st.targetIdx → st.targetIdx ≤ N →
      (scanFrames idxL N dir frames st).1.extracted
          = (scanFrames idxL N dir frames st).1.targetIdx ∧
        (scanFrames idxL N dir frames st).1.targetIdx ≤ N := by
  intro frames
  induction frames with
  | nil => intro st h1 h2; exact ⟨h1, h2⟩
  | cons f rest ih =>
    intro st h1 h2
    by_cases hg : st.targetIdx < N
    · cases hx : idxL[st.targetIdx]? with
      | none =>
        rw [scanFrames, if_pos hg, hx]
        exact ⟨h1, h2⟩
      | some tgt =>
        by_cases he : st.currentFrame = tgt
        · rw [scanFrames_cons_hit idxL N dir f rest st tgt hg hx he]
          exact ih _ (by simp [h1]) (Nat.succ_le_of_lt hg)
        · rw [scanFrames_cons_miss idxL N dir f rest st tgt hg hx he]
          exact ih _ h1 h2
    · rw [scanFrames_done _ _ _ _ _ hg]
      exact ⟨h1, h2⟩

/-- Once the pending target index is strictly behind the frame cursor,
no later frame can match it: the scan runs to the end of the stream
extracting nothing further. -/
theorem scanFrames_stuck (idxL : List Nat) (N : Nat) (dir : String)
    (hlen : idxL.length = N) :
    ∀ (frames : List α) (st : ScanState α),
      st.targetIdx < N →
      idxL.getD st.targetIdx 0 < st.currentFrame →
      scanFrames idxL N dir frames st =
        ({ st with currentFrame := st.currentFrame + frames.length }, none) := by
  intro frames
  induction frames with
  | nil =>
    intro st _ _
    rw [scanFrames_nil]
    simp
  | cons f rest ih =>
    intro st hg hlt
    have hb : st.targetIdx < idxL.length := hlen ▸ hg
    have hx : idxL[st.targetIdx]? = some idxL[st.targetIdx] :=
      List.getElem?_eq_getElem hb
    have hgd : idxL.getD st.targetIdx 0 = idxL[st.targetIdx] := by
      rw [List.getD_eq_getElem?_getD, hx]; rfl
    have he : ¬ st.currentFrame = idxL[st.targetIdx] := by
      rw [← hgd]; exact Nat.ne_of_gt hlt
    rw [scanFrames_cons_miss idxL N dir f rest st _ hg hx he]
    rw [ih { st with currentFrame := st.currentFrame + 1 } hg
      (Nat.lt_succ_of_lt hlt)]
    simp [Nat.add_assoc, Nat.add_comm 1 rest.length]

/-- When `N ≤ T` the target indices are strictly increasing, and a scan
whose cursor has not yet passed the pending target and whose stream
reaches past the last target matches every remaining target. -/
theorem scanFrames_complete (T N : Nat) (dir : String) (hN : 0 < N) (hNT : N ≤ T) :
    ∀ (frames : List α) (st : ScanState α),
      st.targetIdx ≤ N →
      (st.targetIdx < N → st.currentFrame ≤ (frameIndices T N).getD st.targetIdx 0) →
      (st.targetIdx < N →
        (frameIndices T N).getD (N - 1) 0 < st.currentFrame + frames.length) →
      (scanFrames (frameIndices T N) N dir frames st).1.targetIdx = N ∧
        (scanFrames (frameIndices T N) N dir frames st).1.extracted
          = st.extracted + (N - st.targetIdx) := by
  intro frames
  induction frames with
  | nil =>
    intro st h1 h2 h3
    rcases Nat.lt_or_ge st.targetIdx N with hg | hg
    · exfalso
      have hup : (frameIndices T N).getD st.targetIdx 0
          ≤ (frameIndices T N).getD (N - 1) 0 :=
        frameIndices_mono T N st.targetIdx (N - 1)
          (Nat.le_sub_one_of_lt hg) (Nat.sub_lt hN Nat.one_pos)
      have := h3 hg
      have := h2 hg
      simp only [List.length_nil, Nat.add_zero] at *
      omega
    · have heq : st.targetIdx = N := Nat.le_antisymm h1 hg
      rw [scanFrames_nil]
      refine ⟨heq, ?count0⟩
      show st.extracted = st.extracted + (N - st.targetIdx)
      omega
  | cons f rest ih =>
    intro st h1 h2 h3
    rcases Nat.lt_or_ge st.targetIdx N with hg | hg
    · have hb : st.targetIdx < (frameIndices T N).length := by
        rw [frameIndices_length]; exact hg
      have hx : (frameIndices T N)[st.targetIdx]? =
          some (frameIndices T N)[st.targetIdx] := List.getElem?_eq_getElem hb
      have hgd : (frameIndices T N).getD st.targetIdx 0
          = (frameIndices T N)[st.targetIdx] := by
        rw [List.getD_eq_getElem?_getD, hx]; rfl
      by_cases he : st.currentFrame = (frameIndices T N)[st.targetIdx]
      · rw [scanFrames_cons_hit _ N dir f rest st _ hg hx he]
        have hrec := ih
          { extracted := st.extracted + 1
            currentFrame := st.currentFrame + 1
            targetIdx := st.targetIdx + 1
            writes := st.writes ++ [(frameFilename dir st.targetIdx, f)] }
          (Nat.succ_le_of_lt hg)
          (by
            intro hg'
            have hstep := frameIndices_strict T N st.targetIdx hN hNT hg'
            simp only []
            rw [hgd] at hstep
            omega)
          (by
            intro _
            have := h3 hg
            simp only [List.length_cons] at *
            omega)
        refine ⟨hrec.1, ?count⟩
        rw [hrec.2]
        simp only []
        omega
      · have hlt : st.currentFrame < (frameIndices T N)[st.targetIdx] := by
          have := h2 hg
          rw [hgd] at this
          omega
        rw [scanFrames_cons_miss _ N dir f rest st _ hg hx he]
        have hrec := ih { st with currentFrame := st.currentFrame + 1 }
          h1
          (by intro _; simp only []; rw [hgd]; omega)
          (by
            intro _
            have := h3 hg
            simp only [List.length_cons] at *
            omega)
        exact hrec
    · have heq : st.targetIdx = N := Nat.le_antisymm h1 hg
      rw [scanFrames_done _ _ _ _ _ (Nat.not_lt.mpr hg)]
      refine ⟨heq, ?countd⟩
      show st.extracted = st.extracted + (N - st.targetIdx)
      omega

/-! ### Unfolding `extract_frames` on a successfully opened source -/

theorem finishTrace_none (p : ScanState α × Option PyError) (dir : String)
    (h : p.2 = none) :
    finishTrace p dir =
      ⟨p.1.writes, p.1.extracted, Except.ok (extractMessage p.1.extracted dir)⟩ := by
  simp [finishTrace, h]

theorem extract_frames_run (v : VideoSource α) (dir : String) (N : Nat)
    (hop : v.opened = true) (hT : 0 < v.reportedTotal) :
    extract_frames v dir N =
      finishTrace
        (scanFrames (frameIndices v.reportedTotal.toNat N) N dir v.frames ⟨0, 0, 0, []⟩)
        dir := by
  rw [extract_frames, if_neg (by simp [hop]), if_neg (not_le.mpr hT)]

/-- On an opened source with positive reported total, the run never
raises: it prints the summary built from the final `extracted` counter. -/
theorem extract_frames_ok (v : VideoSource α) (dir : String) (N : Nat)
    (hop : v.opened = true) (hT : 0 < v.reportedTotal) :
    extract_frames v dir N =
      ⟨(scanFrames (frameIndices v.reportedTotal.toNat N) N dir v.frames ⟨0, 0, 0, []⟩).1.writes,
        (scanFrames (frameIndices v.reportedTotal.toNat N) N dir v.frames ⟨0, 0, 0, []⟩).1.extracted,
        Except.ok (extractMessage
          (scanFrames (frameIndices v.reportedTotal.toNat N) N dir v.frames ⟨0, 0, 0, []⟩).1.extracted
          dir)⟩ := by
  rw [extract_frames_run v dir N hop hT]
  exact finishTrace_none _ dir
    (scanFrames_no_error _ N dir (frameIndices_length _ N) v.frames ⟨0, 0, 0, []⟩)

/-! ### Behaviour when more frames are requested than exist (`N > T`) -/

/-- When `T < N` the second target index duplicates the first
(`idx[1] = floor(T/N) = 0 = idx[0]`); after frame 0 is matched the scan is
stuck on it forever, so a full stream of `T` frames yields exactly one
extracted frame. -/
theorem extract_one_of_lt (T N : Nat) (frames : List α) (dir : String)
    (hT : 0 < T) (hTN : T < N) (hlen : frames.length = T) :
    (extract_frames ⟨true, (T : Int), frames⟩ dir N).extracted = 1 ∧
      (extract_frames ⟨true, (T : Int), frames⟩ dir N).outcome =
        Except.ok (extractMessage 1 dir) := by
  have hTi : (0 : Int) < (T : Int) := by exact_mod_cast hT
  cases frames with
  | nil => exfalso; simp at hlen; omega
  | cons f rest =>
    have hN : 0 < N := Nat.lt_trans hT hTN
    have hgd1 : (frameIndices T N).getD 1 0 = 0 := by
      rw [frameIndices_getD T N 1 (by omega)]
      simp [Nat.div_eq_of_lt hTN]
    have hscan : scanFrames (frameIndices T N) N dir (f :: rest) ⟨0, 0, 0, []⟩ =
        ({ extracted := 1, currentFrame := 1 + rest.length, targetIdx := 1,
           writes := [(frameFilename dir 0, f)] }, none) := by
      rw [scanFrames_cons_hit (frameIndices T N) N dir f rest ⟨0, 0, 0, []⟩
        (0 * T / N) hN (frameIndices_getElem? T N 0 hN) (by simp)]
      rw [scanFrames_stuck (frameIndices T N) N dir (frameIndices_length T N) rest _
        (by show 0 + 1 < N; omega)
        (by show (frameIndices T N).getD 1 0 < 1; rw [hgd1]; exact Nat.zero_lt_one)]
      simp
    rw [extract_frames_ok ⟨true, (T : Int), f :: rest⟩ dir N rfl hTi]
    constructor
    · show (scanFrames (frameIndices T N) N dir (f :: rest) ⟨0, 0, 0, []⟩).1.extracted = 1
      rw [hscan]
    · show Except.ok (extractMessage
          (scanFrames (frameIndices T N) N dir (f :: rest) ⟨0, 0, 0, []⟩).1.extracted dir)
        = Except.ok (extractMessage 1 dir)
      rw [hscan]

set_option maxRecDepth 8000 in
/-- Claim C1, counterexample: with `T = 3` frames and `N = 200` requested,
the code extracts 1 frame and prints count 1, not the claimed `T = 3`. -/
theorem claim_C1_counterexample :
    (extract_frames (⟨true, 3, List.range 3⟩ : VideoSource Nat) "frames" 200).extracted = 1 ∧
      ¬ (extract_frames (⟨true, 3, List.range 3⟩ : VideoSource Nat) "frames" 200).extracted
          = 3 ∧
      (extract_frames (⟨true, 3, List.range 3⟩ : VideoSource Nat) "frames" 200).outcome =
        Except.ok (extractMessage 1 "frames") := by
  refine ⟨rfl, by decide, rfl⟩

/-- Claim C1, amended: for every source that opens, reports `T > 0` and
yields exactly `T` frames, and every `N > T`, `extract_frames` extracts
(and reports) exactly 1 frame — the scan jams on the first duplicate
target index; in particular with `T = 3`, `N = 200` the printed count
is 1. -/
theorem claim_C1_amended (T N : Nat) (frames : List α) (dir : String)
    (hT : 0 < T) (hTN : T < N) (hlen : frames.length = T) :
    (extract_frames ⟨true, (T : Int), frames⟩ dir N).extracted = 1 ∧
      (extract_frames ⟨true, (T : Int), frames⟩ dir N).outcome =
        Except.ok (extractMessage 1 dir) :=
  extract_one_of_lt T N frames dir hT hTN hlen

/-- Witness for C1's amended theorem at `T = 3`, `N = 200`. -/
theorem claim_C1_witness :
    (extract_frames (⟨true, ((3 : Nat) : Int), [5, 6, 7]⟩ : VideoSource Nat)
        "frames" 200).extracted = 1 ∧
      (extract_frames (⟨true, ((3 : Nat) : Int), [5, 6, 7]⟩ : VideoSource Nat)
          "frames" 200).outcome = Except.ok (extractMessage 1 "frames") :=
  claim_C1_amended 3 200 [5, 6, 7] "frames" (by decide) (by decide) rfl

/-- Claim C2 (confirmed): for every source that opens, reports `T > 0`
and yields exactly `T` frames, and every requested `N` with
`1 ≤ N ≤ T`, `extract_frames` extracts exactly `N` frames. -/
theorem claim_C2_extract_exact (T N : Nat) (frames : List α) (dir : String)
    (hN : 0 < N) (hNT : N ≤ T) (hlen : frames.length = T) :
    (extract_frames ⟨true, (T : Int), frames⟩ dir N).extracted = N := by
  have hT : 0 < T := Nat.lt_of_lt_of_le hN hNT
  have hTi : (0 : Int) < (T : Int) := by exact_mod_cast hT
  rw [extract_frames_ok ⟨true, (T : Int), frames⟩ dir N rfl hTi]
  show (scanFrames (frameIndices T N) N dir frames ⟨0, 0, 0, []⟩).1.extracted = N
  have hc := scanFrames_complete T N dir hN hNT frames ⟨0, 0, 0, []⟩
    (Nat.zero_le N)
    (fun _ => Nat.zero_le _)
    (fun _ => by
      show (frameIndices T N).getD (N - 1) 0 < 0 + frames.length
      have := frameIndices_lt_total T N (N - 1) hT (Nat.sub_lt hN Nat.one_pos)
      omega)
  rw [hc.2]
  show 0 + (N - 0) = N
  omega

/-- Witness for C2 at `T = 4`, `N = 2`. -/
theorem claim_C2_witness :
    (extract_frames (⟨true, ((4 : Nat) : Int), [9, 9, 9, 9]⟩ : VideoSource Nat)
        "out" 2).extracted = 2 :=
  claim_C2_extract_exact 4 2 [9, 9, 9, 9] "out" (by decide) (by decide) rfl

/-- Claim C3 (confirmed): for positive `T` and `N` the target index list
satisfies `idx[i] = floor(i * T / N)`, is non-decreasing, and every entry
lies in `[0, T)` (entries are `Nat`, hence `≥ 0`). -/
theorem claim_C3_indices (T N : Nat) (hT : 0 < T) (_hN : 0 < N) :
    (∀ i, i < N → (frameIndices T N).getD i 0 = i * T / N) ∧
      (∀ i j, i ≤ j → j < N →
        (frameIndices T N).getD i 0 ≤ (frameIndices T N).getD j 0) ∧
      (∀ i, i < N → (frameIndices T N).getD i 0 < T) := by
  refine ⟨fun i hi => frameIndices_getD T N i hi,
    fun i j hij hj => frameIndices_mono T N i j hij hj,
    fun i hi => frameIndices_lt_total T N i hT hi⟩

/-- Witness for C3 at `T = 7`, `N = 3`. -/
theorem claim_C3_witness :
    (frameIndices 7 3).getD 1 0 = 1 * 7 / 3 ∧
      (frameIndices 7 3).getD 0 0 ≤ (frameIndices 7 3).getD 2 0 ∧
      (frameIndices 7 3).getD 2 0 < 7 :=
  ⟨(claim_C3_indices 7 3 (by decide) (by decide)).1 1 (by decide),
    (claim_C3_indices 7 3 (by decide) (by decide)).2.1 0 2 (by decide) (by decide),
    (claim_C3_indices 7 3 (by decide) (by decide)).2.2 2 (by decide)⟩

/-- Claim C4, counterexample: with `T = 1`, `N = 2` the targets are
`[0, 0]` and the single yielded frame covers every target index, yet only
1 frame is extracted — the claimed equivalence fails when targets
duplicate. -/
theorem claim_C4_counterexample :
    frameIndices 1 2 = [0, 0] ∧
      (extract_frames (⟨true, 1, [42]⟩ : VideoSource Nat) "frames" 2).extracted = 1 ∧
      ¬ (extract_frames (⟨true, 1, [42]⟩ : VideoSource Nat) "frames" 2).extracted = 2 :=
  ⟨rfl, rfl, by decide⟩

/-- Claim C4, amended: for a source that opens with reported total
`T > 0` and every positive `N` that additionally satisfies `N ≤ T` (so
the target list has no duplicates), if the source yields a frame at every
target index then the extracted count equals `N`; contrapositively, a
short count then only arises when the stream ends before some target
index. -/
theorem claim_C4_amended (T N : Nat) (frames : List α) (dir : String)
    (hN : 0 < N) (hNT : N ≤ T)
    (hcov : ∀ i, i < N → (frameIndices T N).getD i 0 < frames.length) :
    (extract_frames ⟨true, (T : Int), frames⟩ dir N).extracted = N := by
  have hT : 0 < T := Nat.lt_of_lt_of_le hN hNT
  have hTi : (0 : Int) < (T : Int) := by exact_mod_cast hT
  rw [extract_frames_ok ⟨true, (T : Int), frames⟩ dir N rfl hTi]
  show (scanFrames (frameIndices T N) N dir frames ⟨0, 0, 0, []⟩).1.extracted = N
  have hc := scanFrames_complete T N dir hN hNT frames ⟨0, 0, 0, []⟩
    (Nat.zero_le N)
    (fun _ => Nat.zero_le _)
    (fun _ => by
      show (frameIndices T N).getD (N - 1) 0 < 0 + frames.length
      have := hcov (N - 1) (Nat.sub_lt hN Nat.one_pos)
      omega)
  rw [hc.2]
  show 0 + (N - 0) = N
  omega

/-- Witness for C4's amended theorem at `T = 3`, `N = 2`, a stream of 3
frames. -/
theorem claim_C4_witness :
    (extract_frames (⟨true, ((3 : Nat) : Int), [7, 8, 9]⟩ : VideoSource Nat)
        "out" 2).extracted = 2 :=
  claim_C4_amended 3 2 [7, 8, 9] "out" (by decide) (by decide) (by decide)

/-- Claim C5 (confirmed): whenever `N > T > 0`, the target list starts
with the duplicate `idx[1] = idx[0]`; the duplicate refers to an index
the forward scan has already passed, is never matched, and even a full
stream of `T` frames extracts strictly fewer than `N` frames, while the
run still ends with the ordinary summary line — no distinct warning. -/
theorem claim_C5_duplicates (T N : Nat) (frames : List α) (dir : String)
    (hT : 0 < T) (hTN : T < N) (hlen : frames.length = T) :
    (frameIndices T N).getD 1 0 = (frameIndices T N).getD 0 0 ∧
      (extract_frames ⟨true, (T : Int), frames⟩ dir N).extracted < N ∧
      (extract_frames ⟨true, (T : Int), frames⟩ dir N).outcome =
        Except.ok
          (extractMessage (extract_frames ⟨true, (T : Int), frames⟩ dir N).extracted
            dir) := by
  have h := extract_one_of_lt T N frames dir hT hTN hlen
  refine ⟨?dup, ?lt, ?msg⟩
  · rw [frameIndices_getD T N 1 (by omega), frameIndices_getD T N 0 (by omega)]
    simp [Nat.div_eq_of_lt hTN]
  · rw [h.1]; omega
  · rw [h.2, h.1]

/-- Witness for C5 at `T = 2`, `N = 5`. -/
theorem claim_C5_witness :
    (frameIndices 2 5).getD 1 0 = (frameIndices 2 5).getD 0 0 ∧
      (extract_frames (⟨true, ((2 : Nat) : Int), [4, 4]⟩ : VideoSource Nat)
          "out" 5).extracted < 5 ∧
      (extract_frames (⟨true, ((2 : Nat) : Int), [4, 4]⟩ : VideoSource Nat)
          "out" 5).outcome =
        Except.ok
          (extractMessage
            (extract_frames (⟨true, ((2 : Nat) : Int), [4, 4]⟩ : VideoSource Nat)
              "out" 5).extracted
            "out") :=
  claim_C5_duplicates 2 5 [4, 4] "out" (by decide) (by decide) rfl

/-- Claim C6 (confirmed): with `T = 10`, `N = 5` and a full stream, the
targets are `[0, 2, 4, 6, 8]` and the run writes
`frames/frame_0000.png` … `frames/frame_0004.png`, file `k` holding
source frame `idx[k]` (frames are labelled by their source position
here), reporting 5 extracted frames. -/
theorem claim_C6_scenario :
    frameIndices 10 5 = [0, 2, 4, 6, 8] ∧
      extract_frames (⟨true, 10, List.range 10⟩ : VideoSource Nat) "frames" 5 =
        ⟨[("frames/frame_0000.png", 0),
          ("frames/frame_0001.png", 2),
          ("frames/frame_0002.png", 4),
          ("frames/frame_0003.png", 6),
          ("frames/frame_0004.png", 8)],
          5,
          Except.ok (extractMessage 5 "frames")⟩ :=
  ⟨rfl, rfl⟩

/-- Claim C7 (confirmed): the run raises exactly when the source does not
open (`sourceUnopenable`) or the opened source reports a total `≤ 0`
(`unknownLength`); in either case it raises before any image file is
written (`writes = []`), with no retry — the error is the run's final
outcome. -/
theorem claim_C7_fatal_errors (v : VideoSource α) (dir : String) (N : Nat) :
    ((∃ e, (extract_frames v dir N).outcome = Except.error e) ↔
        v.opened = false ∨ v.reportedTotal ≤ 0) ∧
      (v.opened = false →
        extract_frames v dir N = ⟨[], 0, Except.error PyError.sourceUnopenable⟩) ∧
      (v.opened = true → v.reportedTotal ≤ 0 →
        extract_frames v dir N = ⟨[], 0, Except.error PyError.unknownLength⟩) := by
  refine ⟨⟨?fwd, ?bwd⟩, ?unopen, ?badlen⟩
  · rintro ⟨e, he⟩
    by_contra hcon
    push_neg at hcon
    obtain ⟨h1, h2⟩ := hcon
    have hop : v.opened = true := by
      cases hv : v.opened
      · exact absurd hv h1
      · rfl
    rw [extract_frames_ok v dir N hop h2] at he
    exact Except.noConfusion he
  · intro h
    rcases h with h | h
    · exact ⟨PyError.sourceUnopenable, by rw [extract_frames, if_pos h]⟩
    · cases hv : v.opened
      · exact ⟨PyError.sourceUnopenable, by rw [extract_frames, if_pos hv]⟩
      · exact ⟨PyError.unknownLength,
          by rw [extract_frames, if_neg (by simp [hv]), if_pos h]⟩
  · intro h
    rw [extract_frames, if_pos h]
  · intro hop h
    rw [extract_frames, if_neg (by simp [hop]), if_pos h]

/-- Witness for C7: an unopenable source and a zero-length source. -/
theorem claim_C7_witness :
    extract_frames (⟨false, 10, [0]⟩ : VideoSource Nat) "d" 3 =
        ⟨[], 0, Except.error PyError.sourceUnopenable⟩ ∧
      extract_frames (⟨true, 0, [0]⟩ : VideoSource Nat) "d" 3 =
        ⟨[], 0, Except.error PyError.unknownLength⟩ :=
  ⟨(claim_C7_fatal_errors (⟨false, 10, [0]⟩ : VideoSource Nat) "d" 3).2.1 rfl,
    (claim_C7_fatal_errors (⟨true, 0, [0]⟩ : VideoSource Nat) "d" 3).2.2 rfl
      (by decide)⟩

/-- Claim C8 (confirmed): on an opened source with positive reported
total, a mid-stream read failure is just a shorter yielded stream: the
run still returns normally with the printed summary, and the files
written up to the failure point are exactly an initial segment of what a
longer stream would have produced — nothing already written is lost or
turned into an error. -/
theorem claim_C8_early_end (v : VideoSource α) (dir : String) (N : Nat)
    (hop : v.opened = true) (hT : 0 < v.reportedTotal) :
    (extract_frames v dir N).outcome =
        Except.ok (extractMessage (extract_frames v dir N).extracted dir) ∧
      ∀ k,
        (extract_frames { v with frames := v.frames.take k } dir N).writes =
          ((extract_frames v dir N).writes).take
            (extract_frames { v with frames := v.frames.take k } dir N).writes.length := by
  have hlen : (frameIndices v.reportedTotal.toNat N).length = N :=
    frameIndices_length v.reportedTotal.toNat N
  constructor
  · rw [extract_frames_ok v dir N hop hT]
  · intro k
    rw [extract_frames_ok { v with frames := v.frames.take k } dir N hop hT,
      extract_frames_ok v dir N hop hT]
    show (scanFrames (frameIndices v.reportedTotal.toNat N) N dir (v.frames.take k)
        ⟨0, 0, 0, []⟩).1.writes =
      ((scanFrames (frameIndices v.reportedTotal.toNat N) N dir v.frames
          ⟨0, 0, 0, []⟩).1.writes).take
        (scanFrames (frameIndices v.reportedTotal.toNat N) N dir (v.frames.take k)
            ⟨0, 0, 0, []⟩).1.writes.length
    have happ : scanFrames (frameIndices v.reportedTotal.toNat N) N dir v.frames
          ⟨0, 0, 0, []⟩ =
        scanFrames (frameIndices v.reportedTotal.toNat N) N dir (v.frames.drop k)
          (scanFrames (frameIndices v.reportedTotal.toNat N) N dir (v.frames.take k)
              ⟨0, 0, 0, []⟩).1 := by
      conv_lhs => rw [← List.take_append_drop k v.frames]
      exact scanFrames_append (frameIndices v.reportedTotal.toNat N) N dir hlen _ _ _
    rw [happ]
    obtain ⟨t, ht⟩ := scanFrames_writes_mono (frameIndices v.reportedTotal.toNat N) N dir
      (v.frames.drop k)
      (scanFrames (frameIndices v.reportedTotal.toNat N) N dir (v.frames.take k)
          ⟨0, 0, 0, []⟩).1
    rw [ht]
    exact (List.take_left _ _).symm

/-- Witness for C8: a source reporting 5 frames but yielding 3; the read
failure after 2 frames keeps the first 2 writes. -/
theorem claim_C8_witness :
    (extract_frames (⟨true, 5, [1, 2, 3]⟩ : VideoSource Nat) "d" 2).outcome =
        Except.ok
          (extractMessage
            (extract_frames (⟨true, 5, [1, 2, 3]⟩ : VideoSource Nat) "d" 2).extracted
            "d") ∧
      (extract_frames (⟨true, 5, [1, 2, 3].take 2⟩ : VideoSource Nat) "d" 2).writes =
        ((extract_frames (⟨true, 5, [1, 2, 3]⟩ : VideoSource Nat) "d" 2).writes).take
          (extract_frames (⟨true, 5, [1, 2, 3].take 2⟩ : VideoSource Nat) "d"
              2).writes.length :=
  ⟨(claim_C8_early_end (⟨true, 5, [1, 2, 3]⟩ : VideoSource Nat) "d" 2 rfl
      (by decide)).1,
    (claim_C8_early_end (⟨true, 5, [1, 2, 3]⟩ : VideoSource Nat) "d" 2 rfl
        (by decide)).2 2⟩

/-- Claim C9 (confirmed): the loop invariant `extracted = target_idx ≤
num_frames` holds across the scan from any state satisfying it, and the
final reported count of a run never exceeds the requested `num_frames`. -/
theorem claim_C9_count_bounded (idxL : List Nat) (N : Nat) (dir : String)
    (v : VideoSource α) :
    (∀ (frames : List α) (st : ScanState α),
        st.extracted = st.targetIdx → st.targetIdx ≤ N →
        (scanFrames idxL N dir frames st).1.extracted
            = (scanFrames idxL N dir frames st).1.targetIdx ∧
          (scanFrames idxL N dir frames st).1.targetIdx ≤ N) ∧
      (extract_frames v dir N).extracted ≤ N := by
  refine ⟨fun frames st h1 h2 => scanFrames_invariant idxL N dir frames st h1 h2, ?run⟩
  by_cases h1 : v.opened = false
  · rw [extract_frames, if_pos h1]
    exact Nat.zero_le N
  · have hop : v.opened = true := by
      cases hv : v.opened
      · exact absurd hv h1
      · rfl
    by_cases h2 : v.reportedTotal ≤ 0
    · rw [extract_frames, if_neg (by simp [hop]), if_pos h2]
      exact Nat.zero_le N
    · have hT : 0 < v.reportedTotal := not_le.mp h2
      rw [extract_frames_ok v dir N hop hT]
      show (scanFrames (frameIndices v.reportedTotal.toNat N) N dir v.frames
          ⟨0, 0, 0, []⟩).1.extracted ≤ N
      have hi := scanFrames_invariant (frameIndices v.reportedTotal.toNat N) N dir
        v.frames ⟨0, 0, 0, []⟩ rfl (Nat.zero_le N)
      rw [hi.1]
      exact hi.2

/-- Witness for C9: the invariant and the final bound at a concrete
run. -/
theorem claim_C9_witness :
    ((scanFrames [0, 2] 2 "d" [10, 20, 30] ⟨0, 0, 0, []⟩).1.extracted
        = (scanFrames [0, 2] 2 "d" [10, 20, 30] ⟨0, 0, 0, []⟩).1.targetIdx ∧
      (scanFrames [0, 2] 2 "d" [10, 20, 30] ⟨0, 0, 0, []⟩).1.targetIdx ≤ 2) ∧
      (extract_frames (⟨true, 3, [10, 20, 30]⟩ : VideoSource Nat) "d" 2).extracted ≤ 2 :=
  ⟨(claim_C9_count_bounded [0, 2] 2 "d"
        (⟨true, 3, [10, 20, 30]⟩ : VideoSource Nat)).1
      [10, 20, 30] ⟨0, 0, 0, []⟩ rfl (by decide),
    (claim_C9_count_bounded [0, 2] 2 "d"
        (⟨true, 3, [10, 20, 30]⟩ : VideoSource Nat)).2⟩

/-- Claim C10 (confirmed): the list access `frame_indices[target_idx]` is
always in bounds — the loop guard keeps `target_idx < num_frames`, the
length of `frame_indices` — so the `IndexError` outcome is unreachable
for every source, directory and request. -/
theorem claim_C10_access_in_bounds (v : VideoSource α) (dir : String) (N : Nat) :
    (extract_frames v dir N).outcome ≠ Except.error PyError.indexError := by
  by_cases h1 : v.opened = false
  · rw [extract_frames, if_pos h1]
    intro h
    exact PyError.noConfusion (Except.error.inj h)
  · have hop : v.opened = true := by
      cases hv : v.opened
      · exact absurd hv h1
      · rfl
    by_cases h2 : v.reportedTotal ≤ 0
    · rw [extract_frames, if_neg (by simp [hop]), if_pos h2]
      intro h
      exact PyError.noConfusion (Except.error.inj h)
    · have hT : 0 < v.reportedTotal := not_le.mp h2
      rw [extract_frames_ok v dir N hop hT]
      intro h
      exact Except.noConfusion h

/-- Witness for C10: the unreachability of the `IndexError` outcome at a
concrete run. -/
theorem claim_C10_witness :
    ¬ (extract_frames (⟨true, 2, [0, 1]⟩ : VideoSource Nat) "d" 1).outcome =
        Except.error PyError.indexError :=
  claim_C10_access_in_bounds (⟨true, 2, [0, 1]⟩ : VideoSource Nat) "d" 1

end FrameSampler
